import Mathlib

/-!
Shallow embedding of `acisfp_check/acis_obs.py`.

The module under study extracts observation ("obsid") intervals from an
ordered stream of commanded-state records, enriches them with catalog
attributes fetched from an external service, and classifies them into
thermal-risk buckets.  Times are embedded as integers, expected counts as
rationals, command tokens and instrument labels as strings, exactly as the
Python code manipulates them.  The network fetch is abstracted as an oracle
from the requested obsid list to an optional row table; everything the code
does with the response (sorting by OBSID, positional attachment) is embedded
faithfully.  Reads of possibly-unbound Python locals and out-of-range NumPy
indexing are modelled by `Option`: a `none` result marks a path on which the
Python code would raise.
-/

/-- One record of the commanded-states stream (the fields of `cmd_states`
read by `find_obsid_intervals`). -/
structure CmdState where
  obsid : Int
  power_cmd : String
  datestart : String
  datestop : String
  tstart : Int
  tstop : Int
  simpos : Int
deriving DecidableEq

/-- The catalog attribute group attached to an interval by the enrichment
loop of `find_obsid_intervals` (keys of `ocat_data` other than `"obsid"`). -/
structure OcatGroup where
  grating : String
  ccd_count : Int
  S3 : String
  num_counts : Rat
deriving DecidableEq

/-- The dict built at emission time in `find_obsid_intervals`, with the
catalog group made explicit as an optional component (in Python its
presence is tested via `"grating" in eachobs`). -/
structure ObsidInterval where
  datestart : String
  datestop : String
  tstart : Int
  tstop : Int
  start_science : Int
  obsid : Int
  instrument : String
  ocat : Option OcatGroup
deriving DecidableEq

/-- One row of the per-obsid data assembled by `fetch_ocat_data`: the
arrays of `table_dict` are parallel, so they are embedded as a row list. -/
structure OcatRow where
  obsid : Int
  grating : String
  ccd_count : Int
  S3 : String
  num_counts : Rat
deriving DecidableEq

/-- The function `who_in_fp`: maps a TSC position to the instrument in the focal plane,
defaulting to `"launchlock"`. -/
def who_in_fp (simpos : Int) : String :=
  if 104839 ≥ simpos ∧ simpos ≥ 82109 then "ACIS-I"
  else if 82108 ≥ simpos ∧ simpos ≥ 70736 then "ACIS-S"
  else if -20000 ≥ simpos ∧ simpos ≥ -86147 then "HRC-I"
  else if -86148 ≥ simpos ∧ simpos ≥ -104362 then "HRC-S"
  else "launchlock"

/-- The loop state of `find_obsid_intervals`: the flags `firstpow` and
`xtztime`, the latched locals `datestart`, `tstart`, `instrument`
(`Option` because Python leaves them unbound until first assigned), and
the accumulated `obsid_interval_list`. -/
structure ScanState where
  firstpow : Bool
  xtztime : Option Int
  datestart : Option String
  tstart : Option Int
  instrument : Option String
  out : List ObsidInterval
deriving DecidableEq

/-- Initial loop state: `firstpow = False`, `xtztime = None`, nothing
latched, empty master list. -/
def initScanState : ScanState :=
  { firstpow := false, xtztime := none, datestart := none, tstart := none,
    instrument := none, out := [] }

/-- The first `if` of the loop body: the first `WSPOW00000`/`WSVIDALLDN`
of an interval latches `firstpow`, `datestart` and `tstart`. -/
def stepPow (s : ScanState) (e : CmdState) : ScanState :=
  if (e.power_cmd == "WSPOW00000" || e.power_cmd == "WSVIDALLDN") && !s.firstpow then
    { s with firstpow := true, datestart := some e.datestart, tstart := some e.tstart }
  else s

/-- The second `if` of the loop body: the first `XTZ0000005`/`XCZ0000005`
after the power-up latches `xtztime` and fixes the instrument. -/
def stepXtz (s : ScanState) (e : CmdState) : ScanState :=
  if (e.power_cmd == "XTZ0000005" || e.power_cmd == "XCZ0000005")
      && (s.xtztime.isNone && s.firstpow) then
    { s with xtztime := some e.tstart, instrument := some (who_in_fp e.simpos) }
  else s

/-- The third `if` of the loop body: `AA00000000` with `firstpow` set
closes the interval, emitting it when `xtztime` was seen; `none` marks a
read of a local that was never assigned (Python `NameError`). -/
def stepAA (s : ScanState) (e : CmdState) : Option ScanState :=
  if e.power_cmd == "AA00000000" && s.firstpow then
    match s.xtztime with
    | some xtz =>
      match s.datestart, s.tstart, s.instrument with
      | some ds, some ts, some instr =>
        some { s with
               out := s.out ++
                 [{ datestart := ds, datestop := e.datestop, tstart := ts,
                    tstop := e.tstop, start_science := xtz, obsid := e.obsid,
                    instrument := instr, ocat := none }],
               firstpow := false, xtztime := none }
      | _, _, _ => none
    | none => some { s with firstpow := false, xtztime := none }
  else
    some s

/-- One iteration of the `for eachstate in cmd_states` loop: skip the
maneuver range, then run the three sequential `if`s. -/
def stepState (s : ScanState) (e : CmdState) : Option ScanState :=
  if 60000 > e.obsid ∧ e.obsid ≥ 38001 then
    some s
  else
    stepAA (stepXtz (stepPow s e) e) e

/-- The whole `for` loop of `find_obsid_intervals`. -/
def runScan : ScanState → List CmdState → Option ScanState
  | s, [] => some s
  | s, e :: rest =>
    match stepState s e with
    | none => none
    | some s' => runScan s' rest

/-- Comparison key of the first sort: `key=lambda x: x["obsid"]`.
Python's `list.sort` is a stable sort; it is embedded by the (equally
stable) `List.insertionSort`, which computes the same permutation. -/
def obsidLE : ObsidInterval → ObsidInterval → Prop := fun a b => a.obsid ≤ b.obsid

instance : DecidableRel obsidLE := fun a b => Int.decLe a.obsid b.obsid

instance : IsTotal ObsidInterval obsidLE := ⟨fun a b => Int.le_total a.obsid b.obsid⟩

instance : IsTrans ObsidInterval obsidLE := ⟨fun _ _ _ => Int.le_trans⟩

/-- Comparison key of the final sort: `key=lambda x: x["tstart"]`. -/
def tstartLE : ObsidInterval → ObsidInterval → Prop := fun a b => a.tstart ≤ b.tstart

instance : DecidableRel tstartLE := fun a b => Int.decLe a.tstart b.tstart

instance : IsTotal ObsidInterval tstartLE := ⟨fun a b => Int.le_total a.tstart b.tstart⟩

instance : IsTrans ObsidInterval tstartLE := ⟨fun _ _ _ => Int.le_trans⟩

/-- Comparison key of `tab.sort("OBSID")` in `fetch_ocat_data`. -/
def rowLE : OcatRow → OcatRow → Prop := fun a b => a.obsid ≤ b.obsid

instance : DecidableRel rowLE := fun a b => Int.decLe a.obsid b.obsid

instance : IsTotal OcatRow rowLE := ⟨fun a b => Int.le_total a.obsid b.obsid⟩

instance : IsTrans OcatRow rowLE := ⟨fun _ _ _ => Int.le_trans⟩

/-- The interval list after the scan and the first sort
(`obsid_interval_list.sort(key=lambda x: x["obsid"])`). -/
def sorted_by_obsid (cmd_states : List CmdState) : Option (List ObsidInterval) :=
  (runScan initScanState cmd_states).map (fun st => List.insertionSort obsidLE st.out)

/-- The obsid list handed to `fetch_ocat_data`
(`obsids = [e["obsid"] for e in obsid_interval_list]`). -/
def requested_obsids (cmd_states : List CmdState) : Option (List Int) :=
  (sorted_by_obsid cmd_states).map (List.map (fun e => e.obsid))

/-- The function `fetch_ocat_data`, network abstracted as `oracle`: on success the
fetched table is sorted by OBSID (`tab.sort("OBSID")`) and returned as
parallel per-obsid data; `none` is the failure value (`table_dict = None`).
The second component records the request that was issued. -/
def fetch_ocat_data (oracle : List Int → Option (List OcatRow))
    (obsid_list : List Int) : Option (List OcatRow) × List (List Int) :=
  ((oracle obsid_list).map (fun rows => List.insertionSort rowLE rows), [obsid_list])

/-- Attachment of one catalog row's non-obsid keys to an interval
(`obsid_interval_list[i][key] = ocat_data[key][i]` for each key). -/
def attachRow (r : OcatRow) (e : ObsidInterval) : ObsidInterval :=
  { e with ocat := some { grating := r.grating, ccd_count := r.ccd_count,
                          S3 := r.S3, num_counts := r.num_counts } }

/-- Body of the enrichment loop for the interval at position `i` of the
obsid-sorted list: cold ECS obsids (`obsid > 60000`) are skipped, others
read row `i` of the fetched arrays (`none` = NumPy `IndexError`). -/
def enrichOne (rows : List OcatRow) (e : ObsidInterval) (i : Nat) : Option ObsidInterval :=
  if e.obsid > 60000 then some e
  else
    match rows.get? i with
    | some r => some (attachRow r e)
    | none => none

/-- The enrichment loop `for i, obsid in enumerate(obsids)` starting at
index `i`. -/
def enrichFrom (rows : List OcatRow) : Nat → List ObsidInterval → Option (List ObsidInterval)
  | _, [] => some []
  | i, e :: rest =>
    match enrichOne rows e i with
    | none => none
    | some e' =>
      match enrichFrom rows (i + 1) rest with
      | none => none
      | some rest' => some (e' :: rest')

/-- The function `find_obsid_intervals`, paired with the log of catalog requests it
issues: scan, sort by obsid, fetch, enrich (skipped entirely when the
fetch failed), re-sort by tstart. -/
def find_obsid_intervals_traced (oracle : List Int → Option (List OcatRow))
    (cmd_states : List CmdState) : Option (List ObsidInterval) × List (List Int) :=
  match sorted_by_obsid cmd_states with
  | none => (none, [])
  | some l1 =>
    let fetched := fetch_ocat_data oracle (l1.map (fun e => e.obsid))
    match fetched.1 with
    | none => (some (List.insertionSort tstartLE l1), fetched.2)
    | some rows =>
      match enrichFrom rows 0 l1 with
      | none => (none, fetched.2)
      | some l2 => (some (List.insertionSort tstartLE l2), fetched.2)

/-- The return value of `find_obsid_intervals`. -/
def find_obsid_intervals (oracle : List Int → Option (List OcatRow))
    (cmd_states : List CmdState) : Option (List ObsidInterval) :=
  (find_obsid_intervals_traced oracle cmd_states).1

/-- Character-wise prefix test on char lists. -/
def listPre : List Char → List Char → Bool
  | [], _ => true
  | _ :: _, [] => false
  | a :: as, b :: bs => a == b && listPre as bs

/-- Python's `str.startswith`: `strStartsWith s p` is true when `p` is a
character-wise prefix of `s`. -/
def strStartsWith (s p : String) : Bool := listPre p.data s.data

/-- The function `hrc_science_obs_filter`: keep the intervals whose instrument starts
with `"ACIS-"` or whose obsid is at least 60000. -/
def hrc_science_obs_filter : List ObsidInterval → List ObsidInterval
  | [] => []
  | e :: rest =>
    if strStartsWith e.instrument "ACIS-" || decide (e.obsid ≥ 60000) then
      e :: hrc_science_obs_filter rest
    else
      hrc_science_obs_filter rest

/-- The `hot_acis` flag computed per interval in `acis_filter`
(`"grating" in eachobs` becomes the presence of the catalog group). -/
def hot_acis (e : ObsidInterval) : Bool :=
  match e.ocat with
  | some g =>
    let hetg := g.grating == "HETG"
    let s3_only := g.S3 == "Y" && g.ccd_count == 1
    hetg || (decide (g.num_counts < 300) && s3_only)
  | none => false

/-- The four buckets returned by `acis_filter`, in the tuple order
`(acis_i, acis_s, acis_hot, cold_ecs)`. -/
structure Buckets where
  acis_i : List ObsidInterval
  acis_s : List ObsidInterval
  acis_hot : List ObsidInterval
  cold_ecs : List ObsidInterval
deriving DecidableEq

/-- The `RuntimeError` message of `acis_filter`. -/
def classErrMsg (obsid : Int) : String :=
  "Cannot determine what kind of thermal limit " ++ toString obsid ++ " should have!"

/-- The loop of `acis_filter`; raising becomes `Except.error`. -/
def acis_filter_loop : List ObsidInterval → Buckets → Except String Buckets
  | [], b => .ok b
  | e :: rest, b =>
    if hot_acis e then
      acis_filter_loop rest { b with acis_hot := b.acis_hot ++ [e] }
    else if e.instrument == "ACIS-S" then
      acis_filter_loop rest { b with acis_s := b.acis_s ++ [e] }
    else if e.instrument == "ACIS-I" then
      acis_filter_loop rest { b with acis_i := b.acis_i ++ [e] }
    else if e.instrument == "HRC-S" && decide (e.obsid ≥ 60000) then
      acis_filter_loop rest { b with cold_ecs := b.cold_ecs ++ [e] }
    else
      .error (classErrMsg e.obsid)

/-- The function `acis_filter`. -/
def acis_filter (l : List ObsidInterval) : Except String Buckets :=
  acis_filter_loop l { acis_i := [], acis_s := [], acis_hot := [], cold_ecs := [] }

/-! ### Helper lemmas about the sort keys -/


/-- C9: `who_in_fp` maps every integer simpos to exactly one label via the
inclusive, mutually exclusive ranges 82109..104839 → ACIS-I,
70736..82108 → ACIS-S, -86147..-20000 → HRC-I, -104362..-86148 → HRC-S,
and everything else (gap values such as 0, out-of-band values such as
104840) → launchlock. -/
theorem who_in_fp_ranges (s : Int) :
    (who_in_fp s = "ACIS-I" ↔ 82109 ≤ s ∧ s ≤ 104839)
  ∧ (who_in_fp s = "ACIS-S" ↔ 70736 ≤ s ∧ s ≤ 82108)
  ∧ (who_in_fp s = "HRC-I" ↔ -86147 ≤ s ∧ s ≤ -20000)
  ∧ (who_in_fp s = "HRC-S" ↔ -104362 ≤ s ∧ s ≤ -86148)
  ∧ (who_in_fp s = "launchlock" ↔
      ¬(82109 ≤ s ∧ s ≤ 104839) ∧ ¬(70736 ≤ s ∧ s ≤ 82108) ∧
      ¬(-86147 ≤ s ∧ s ≤ -20000) ∧ ¬(-104362 ≤ s ∧ s ≤ -86148)) := by
  unfold who_in_fp
  split_ifs with h1 h2 h3 h4 <;>
    refine ⟨?_, ?_, ?_, ?_, ?_⟩ <;>
    constructor <;>
    intro h <;>
    first
      | rfl
      | omega
      | (exact absurd h (by decide))

/-! ### hrc_science_obs_filter -/

/-- The retention predicate of `hrc_science_obs_filter`. -/
def hrcKeep (e : ObsidInterval) : Bool :=
  strStartsWith e.instrument "ACIS-" || decide (e.obsid ≥ 60000)

theorem hrc_filter_eq_filter (l : List ObsidInterval) :
    hrc_science_obs_filter l = l.filter hrcKeep := by
  induction l with
  | nil => rfl
  | cons e rest ih =>
    by_cases h : hrcKeep e
    · simp [hrc_science_obs_filter, List.filter_cons, hrcKeep] at h ⊢
      simp [h, ih]
    · simp [hrc_science_obs_filter, List.filter_cons, hrcKeep] at h ⊢
      simp [h, ih]

/-- Sample interval builder for concrete tests. -/
def mkObs (obsid : Int) (instr : String) (ts : Int) : ObsidInterval :=
  { datestart := "2020:001", datestop := "2020:002", tstart := ts, tstop := ts + 10,
    start_science := ts, obsid := obsid, instrument := instr, ocat := none }

/-- C5: `hrc_science_obs_filter` retains an interval iff its instrument
label starts with `"ACIS-"` or its obsid is ≥ 60000, preserving the
relative order of retained intervals; an ACIS-I interval with obsid 100
and an HRC-S interval with obsid 60001 are kept, an HRC-I interval with
obsid 500 is dropped. -/
theorem hrc_science_obs_filter_spec :
    (∀ l : List ObsidInterval,
        hrc_science_obs_filter l =
          l.filter (fun e => strStartsWith e.instrument "ACIS-" || decide (e.obsid ≥ 60000)) ∧
        (hrc_science_obs_filter l).Sublist l ∧
        ∀ e, e ∈ hrc_science_obs_filter l ↔
          e ∈ l ∧ (strStartsWith e.instrument "ACIS-" || decide (e.obsid ≥ 60000)) = true)
  ∧ hrc_science_obs_filter
      [mkObs 100 "ACIS-I" 0, mkObs 60001 "HRC-S" 20, mkObs 500 "HRC-I" 40] =
      [mkObs 100 "ACIS-I" 0, mkObs 60001 "HRC-S" 20] := by
  constructor
  · intro l
    refine ⟨hrc_filter_eq_filter l, ?_, ?_⟩
    · rw [hrc_filter_eq_filter]; exact List.filter_sublist l
    · intro e
      rw [hrc_filter_eq_filter]
      simp [List.mem_filter, hrcKeep]
  · decide

/-! ### The scan state machine -/

/-- Invariant of the scan loop: whenever `firstpow` is set the start
latches are bound, and whenever `xtztime` is set the interval is open and
the instrument latch is bound. -/
def ScanInv (s : ScanState) : Prop :=
  (s.firstpow = true → s.datestart.isSome ∧ s.tstart.isSome) ∧
  (s.xtztime.isSome → s.firstpow = true ∧ s.instrument.isSome)

theorem stepPow_inv (s : ScanState) (e : CmdState) (h : ScanInv s) :
    ScanInv (stepPow s e) := by
  unfold ScanInv stepPow at *
  split_ifs with h1 <;> simp_all

theorem stepXtz_inv (s : ScanState) (e : CmdState) (h : ScanInv s) :
    ScanInv (stepXtz s e) := by
  unfold ScanInv stepXtz at *
  split_ifs with h1 <;> simp_all

theorem stepAA_total (s : ScanState) (e : CmdState) (h : ScanInv s) :
    ∃ s', stepAA s e = some s' ∧ ScanInv s' := by
  unfold ScanInv stepAA at *
  split_ifs with h1
  · simp only [Bool.and_eq_true, beq_iff_eq] at h1
    obtain ⟨hds, hts⟩ := h.1 h1.2
    cases hxt : s.xtztime with
    | none => exact ⟨_, rfl, by simp_all⟩
    | some xtz =>
      obtain ⟨-, hins⟩ := h.2 (by simp [hxt])
      obtain ⟨ds, hds'⟩ := Option.isSome_iff_exists.mp hds
      obtain ⟨ts, hts'⟩ := Option.isSome_iff_exists.mp hts
      obtain ⟨ins, hins'⟩ := Option.isSome_iff_exists.mp hins
      rw [hds', hts', hins']
      exact ⟨_, rfl, by simp_all⟩
  · exact ⟨s, rfl, h⟩

theorem stepState_total (s : ScanState) (e : CmdState) (h : ScanInv s) :
    ∃ s', stepState s e = some s' ∧ ScanInv s' := by
  unfold stepState
  split_ifs with h1
  · exact ⟨s, rfl, h⟩
  · exact stepAA_total _ e (stepXtz_inv _ e (stepPow_inv s e h))

theorem runScan_total (cs : List CmdState) :
    ∀ s : ScanState, ScanInv s → ∃ st, runScan s cs = some st ∧ ScanInv st := by
  induction cs with
  | nil => intro s h; exact ⟨s, rfl, h⟩
  | cons e rest ih =>
    intro s h
    obtain ⟨s', hs', hinv⟩ := stepState_total s e h
    obtain ⟨st, hst, hstinv⟩ := ih s' hinv
    exact ⟨st, by simp [runScan, hs', hst], hstinv⟩

theorem initScanState_inv : ScanInv initScanState := by
  unfold ScanInv initScanState; simp

theorem runScan_init_some (cmd_states : List CmdState) :
    ∃ st, runScan initScanState cmd_states = some st := by
  obtain ⟨st, hst, -⟩ := runScan_total cmd_states initScanState initScanState_inv
  exact ⟨st, hst⟩

/-- C10: the emission branch of the scan never reads an undefined latch:
with the latched locals modelled as `Option` values (whose `none` branch
marks a Python `NameError`), the scan of any command stream from the
initial state returns `some`, i.e. the `none` branches of the reads in
the emission code are unreachable. -/
theorem scan_latches_always_set (cmd_states : List CmdState) :
    ∃ st, runScan initScanState cmd_states = some st :=
  runScan_init_some cmd_states

theorem stepPow_out (s : ScanState) (e : CmdState) : (stepPow s e).out = s.out := by
  unfold stepPow; split_ifs <;> rfl

theorem stepXtz_out (s : ScanState) (e : CmdState) : (stepXtz s e).out = s.out := by
  unfold stepXtz; split_ifs <;> rfl

theorem stepPow_not_pow (s : ScanState) (e : CmdState)
    (h : (e.power_cmd == "WSPOW00000" || e.power_cmd == "WSVIDALLDN") = false) :
    stepPow s e = s := by
  unfold stepPow; simp [h]

theorem stepXtz_not_xtz (s : ScanState) (e : CmdState)
    (h : (e.power_cmd == "XTZ0000005" || e.power_cmd == "XCZ0000005") = false) :
    stepXtz s e = s := by
  unfold stepXtz; simp [h]

theorem stepAA_cases (s : ScanState) (e : CmdState) (s' : ScanState)
    (h : stepAA s e = some s') :
    (s' = s ∧ ¬(e.power_cmd = "AA00000000" ∧ s.firstpow = true)) ∨
    (e.power_cmd = "AA00000000" ∧ s.firstpow = true ∧ s.xtztime = none ∧
      s' = { s with firstpow := false, xtztime := none }) ∨
    (e.power_cmd = "AA00000000" ∧ s.firstpow = true ∧ s.xtztime.isSome ∧
      ∃ x, s'.out = s.out ++ [x] ∧ x.obsid = e.obsid ∧ x.ocat = none ∧
        s'.firstpow = false ∧ s'.xtztime = none) := by
  unfold stepAA at h
  split_ifs at h with h1
  · simp only [Bool.and_eq_true, beq_iff_eq] at h1
    cases hxt : s.xtztime with
    | none =>
      rw [hxt] at h
      right; left
      exact ⟨h1.1, h1.2, rfl, by injection h with h; exact h.symm⟩
    | some xtz =>
      rw [hxt] at h
      right; right
      refine ⟨h1.1, h1.2, by simp [hxt], ?_⟩
      cases hds : s.datestart with
      | none => rw [hds] at h; exact absurd h (by simp)
      | some ds =>
        rw [hds] at h
        cases hts : s.tstart with
        | none => rw [hts] at h; exact absurd h (by simp)
        | some ts =>
          rw [hts] at h
          cases hins : s.instrument with
          | none => rw [hins] at h; exact absurd h (by simp)
          | some ins =>
            rw [hins] at h
            injection h with h
            subst h
            exact ⟨_, rfl, rfl, rfl, rfl, rfl⟩
  · simp only [Bool.and_eq_true, beq_iff_eq, not_and] at h1
    left
    refine ⟨by injection h with h; exact h.symm, ?_⟩
    intro hc
    simp [hc.1, hc.2] at h1

/-- C4: an interval is emitted only when an `AA00000000` record is
processed while `firstpow` is set and `xtztime` (the science-start
timestamp) is set; an `AA00000000` seen with `firstpow` set but no
science start emits nothing yet still resets `firstpow := false`,
`xtztime := none`; and the scan performs no emission at stream end, so an
interval still open there is discarded. -/
theorem emission_requires_aa_and_science_start
    (s : ScanState) (e : CmdState) (s' : ScanState) (h : stepState s e = some s') :
    (s'.out ≠ s.out →
      e.power_cmd = "AA00000000" ∧ s.firstpow = true ∧ s.xtztime.isSome ∧
      ∃ x, s'.out = s.out ++ [x])
  ∧ (e.power_cmd = "AA00000000" → s.firstpow = true → s.xtztime = none →
      ¬(38001 ≤ e.obsid ∧ e.obsid < 60000) →
      s'.out = s.out ∧ s'.firstpow = false ∧ s'.xtztime = none)
  ∧ (∀ s0 : ScanState, runScan s0 [] = some s0) := by
  refine ⟨?_, ?_, fun s0 => rfl⟩
  · intro hne
    unfold stepState at h
    split_ifs at h with hskip
    · injection h with h
      exact absurd (congrArg ScanState.out h).symm hne
    · rcases stepAA_cases _ _ _ h with ⟨heq, -⟩ | ⟨ha, hfp, hxt, heq⟩ |
        ⟨ha, hfp, hxt, x, hout, hobs, hocat, -⟩
      · rw [heq, stepXtz_out, stepPow_out] at hne
        exact absurd rfl hne
      · rw [heq] at hne
        simp only [stepXtz_out, stepPow_out] at hne
        exact absurd rfl hne
      · have hpow : stepPow s e = s := stepPow_not_pow s e (by rw [ha]; decide)
        have hxtz : stepXtz s e = s := stepXtz_not_xtz s e (by rw [ha]; decide)
        rw [hpow, hxtz] at hfp hxt hout
        exact ⟨ha, hfp, hxt, x, hout⟩
  · intro ha hfp hxt hnr
    unfold stepState at h
    split_ifs at h with hskip
    · exact absurd ⟨hskip.2, hskip.1⟩ hnr
    · have hpow : stepPow s e = s := stepPow_not_pow s e (by rw [ha]; decide)
      have hxtz : stepXtz s e = s := stepXtz_not_xtz s e (by rw [ha]; decide)
      rw [hpow, hxtz] at h
      unfold stepAA at h
      rw [ha, hfp, hxt] at h
      simp only [beq_self_eq_true, Bool.and_self, if_pos] at h
      injection h with h
      rw [← h]
      exact ⟨rfl, rfl, rfl⟩

/-- Concrete state-transition used to instantiate the emission theorem. -/
def wS : ScanState :=
  { firstpow := true, xtztime := some 5, datestart := some "d1", tstart := some 7,
    instrument := some "ACIS-S", out := [] }

/-- Concrete `AA00000000` record used to instantiate the emission theorem. -/
def wE : CmdState :=
  { obsid := 100, power_cmd := "AA00000000", datestart := "a", datestop := "b",
    tstart := 9, tstop := 10, simpos := 0 }

/-- Concrete post-state of `stepState wS wE`. -/
def wS' : ScanState :=
  { firstpow := false, xtztime := none, datestart := some "d1", tstart := some 7,
    instrument := some "ACIS-S",
    out := [{ datestart := "d1", datestop := "b", tstart := 7, tstop := 10,
              start_science := 5, obsid := 100, instrument := "ACIS-S", ocat := none }] }

theorem emission_requires_aa_and_science_start_witness :
    stepState wS wE = some wS' ∧
    (wS'.out ≠ wS.out →
      wE.power_cmd = "AA00000000" ∧ wS.firstpow = true ∧ wS.xtztime.isSome ∧
      ∃ x, wS'.out = wS.out ++ [x]) :=
  ⟨by decide, (emission_requires_aa_and_science_start wS wE wS' (by decide)).1⟩

theorem stepState_out (s : ScanState) (e : CmdState) (s' : ScanState)
    (h : stepState s e = some s') :
    ∀ x ∈ s'.out, x ∈ s.out ∨
      (x.obsid = e.obsid ∧ ¬(38001 ≤ e.obsid ∧ e.obsid < 60000) ∧ x.ocat = none) := by
  intro x hx
  unfold stepState at h
  split_ifs at h with hskip
  · injection h with h
    rw [← h] at hx
    exact Or.inl hx
  · rcases stepAA_cases _ _ _ h with ⟨heq, -⟩ | ⟨ha, hfp, hxt, heq⟩ |
      ⟨ha, hfp, hxt, x0, hout, hobs, hocat, -⟩
    · rw [heq, stepXtz_out, stepPow_out] at hx
      exact Or.inl hx
    · rw [heq] at hx
      simp only [stepXtz_out, stepPow_out] at hx
      exact Or.inl hx
    · rw [hout, stepXtz_out, stepPow_out] at hx
      rcases List.mem_append.mp hx with hl | hr
      · exact Or.inl hl
      · have hx0 : x = x0 := by simpa using hr
        subst hx0
        exact Or.inr ⟨hobs, fun hc => hskip ⟨hc.2, hc.1⟩, hocat⟩

theorem runScan_out (cs : List CmdState) :
    ∀ s st, runScan s cs = some st →
      ∀ x ∈ st.out, x ∈ s.out ∨
        (¬(38001 ≤ x.obsid ∧ x.obsid < 60000) ∧ x.ocat = none) := by
  induction cs with
  | nil =>
    intro s st h x hx
    injection h with h
    rw [← h] at hx
    exact Or.inl hx
  | cons e rest ih =>
    intro s st h x hx
    unfold runScan at h
    cases hse : stepState s e with
    | none => rw [hse] at h; exact absurd h (by simp)
    | some s1 =>
      rw [hse] at h
      rcases ih s1 st h x hx with hl | hr
      · rcases stepState_out s e s1 hse x hl with h1 | ⟨hobs, hnr, hocat⟩
        · exact Or.inl h1
        · exact Or.inr ⟨by rw [hobs]; exact hnr, hocat⟩
      · exact Or.inr hr

theorem runScan_init_out (cs : List CmdState) (st : ScanState)
    (h : runScan initScanState cs = some st) :
    ∀ x ∈ st.out, ¬(38001 ≤ x.obsid ∧ x.obsid < 60000) ∧ x.ocat = none := by
  intro x hx
  rcases runScan_out cs initScanState st h x hx with hl | hr
  · exact absurd hl (by simp [initScanState])
  · exact hr

theorem attachRow_obsid (r : OcatRow) (e : ObsidInterval) :
    (attachRow r e).obsid = e.obsid := rfl

theorem attachRow_instr (r : OcatRow) (e : ObsidInterval) :
    (attachRow r e).instrument = e.instrument := rfl

theorem attachRow_ocat (r : OcatRow) (e : ObsidInterval) :
    (attachRow r e).ocat = some { grating := r.grating, ccd_count := r.ccd_count,
                                  S3 := r.S3, num_counts := r.num_counts } := rfl

theorem enrichFrom_mem (rows : List OcatRow) :
    ∀ (i : Nat) (l l' : List ObsidInterval), enrichFrom rows i l = some l' →
      ∀ b ∈ l', ∃ a ∈ l, b = a ∨
        (a.obsid ≤ 60000 ∧ ∃ r ∈ rows, b = attachRow r a) := by
  intro i l
  induction l generalizing i with
  | nil =>
    intro l' h b hb
    injection h with h
    rw [← h] at hb
    exact absurd hb (by simp)
  | cons e rest ih =>
    intro l' h b hb
    unfold enrichFrom at h
    cases he : enrichOne rows e i with
    | none => rw [he] at h; exact absurd h (by simp)
    | some e' =>
      rw [he] at h
      cases hr : enrichFrom rows (i + 1) rest with
      | none => rw [hr] at h; exact absurd h (by simp)
      | some rest' =>
        rw [hr] at h
        injection h with h
        rw [← h] at hb
        rcases List.mem_cons.mp hb with hb1 | hb2
        · subst hb1
          unfold enrichOne at he
          split_ifs at he with hc
          · injection he with he
            exact ⟨e, List.mem_cons_self e rest, Or.inl he.symm⟩
          · cases hg : rows.get? i with
            | none => rw [hg] at he; exact absurd he (by simp)
            | some r =>
              rw [hg] at he
              injection he with he
              exact ⟨e, List.mem_cons_self e rest,
                Or.inr ⟨by omega, r, List.get?_mem hg, he.symm⟩⟩
        · obtain ⟨a, ha, hp⟩ := ih (i + 1) rest' hr b hb2
          exact ⟨a, List.mem_cons_of_mem e ha, hp⟩

theorem mem_insertionSort {α : Type} (r : α → α → Prop) [DecidableRel r]
    (l : List α) (x : α) : x ∈ List.insertionSort r l ↔ x ∈ l :=
  (List.perm_insertionSort r l).mem_iff

/-- Origin of every element of the returned interval list: it is an
emitted interval of the scan, possibly with a catalog row attached. -/
theorem find_mem_origin (oracle : List Int → Option (List OcatRow))
    (cs : List CmdState) (res : List ObsidInterval)
    (h : find_obsid_intervals oracle cs = some res) :
    ∀ x ∈ res, ∃ st, runScan initScanState cs = some st ∧
      ∃ a ∈ st.out, x = a ∨ (a.obsid ≤ 60000 ∧ ∃ r, x = attachRow r a) := by
  intro x hx
  unfold find_obsid_intervals find_obsid_intervals_traced at h
  cases hscan : sorted_by_obsid cs with
  | none => rw [hscan] at h; exact absurd h (by simp)
  | some l1 =>
    rw [hscan] at h
    obtain ⟨st, hst, hl1⟩ := Option.map_eq_some'.mp hscan
    have hmem_l1 : ∀ y, y ∈ l1 → y ∈ st.out := by
      intro y hy
      rw [← hl1] at hy
      exact (mem_insertionSort obsidLE st.out y).mp hy
    cases horacle : oracle (l1.map (fun e => e.obsid)) with
    | none =>
      simp only [fetch_ocat_data, horacle, Option.map_none', Option.some.injEq] at h
      rw [← h] at hx
      have := (mem_insertionSort tstartLE l1 x).mp hx
      exact ⟨st, hst, x, hmem_l1 x this, Or.inl rfl⟩
    | some raw =>
      simp only [fetch_ocat_data, horacle, Option.map_some'] at h
      cases hen : enrichFrom (List.insertionSort rowLE raw) 0 l1 with
      | none => rw [hen] at h; simp at h
      | some l2 =>
        rw [hen] at h
        simp only [Option.some.injEq] at h
        rw [← h] at hx
        have hx2 := (mem_insertionSort tstartLE l2 x).mp hx
        obtain ⟨a, ha, hp⟩ := enrichFrom_mem _ 0 l1 l2 hen x hx2
        rcases hp with hp | ⟨hle, r, -, hp⟩
        · exact ⟨st, hst, a, hmem_l1 a ha, Or.inl hp⟩
        · exact ⟨st, hst, a, hmem_l1 a ha, Or.inr ⟨hle, r, hp⟩⟩

/-! ### Concrete fixtures used by the witnesses -/

/-- Shorthand commanded-state record builder. -/
def mkCmd (obsid : Int) (pc ds dsp : String) (ts tsp sp : Int) : CmdState :=
  { obsid := obsid, power_cmd := pc, datestart := ds, datestop := dsp,
    tstart := ts, tstop := tsp, simpos := sp }

/-- A command stream producing two science intervals, obsids 200 then 100. -/
def exStream : List CmdState :=
  [ mkCmd 200 "WSPOW00000" "d1" "x" 10 11 0,
    mkCmd 200 "XTZ0000005" "a" "b" 20 21 90000,
    mkCmd 200 "AA00000000" "c" "d2" 29 30 0,
    mkCmd 100 "WSPOW00000" "d3" "x" 40 41 0,
    mkCmd 100 "XTZ0000005" "a" "b" 50 51 75000,
    mkCmd 100 "AA00000000" "c" "d4" 59 60 0 ]

/-- An always-failing catalog oracle. -/
def exOracleNone : List Int → Option (List OcatRow) := fun _ => none

/-- The intervals `find_obsid_intervals exOracleNone exStream` returns. -/
def exResNone : List ObsidInterval :=
  [ { datestart := "d1", datestop := "d2", tstart := 10, tstop := 30,
      start_science := 20, obsid := 200, instrument := "ACIS-I", ocat := none },
    { datestart := "d3", datestop := "d4", tstart := 40, tstop := 60,
      start_science := 50, obsid := 100, instrument := "ACIS-S", ocat := none } ]

/-- C7: no returned interval has an obsid in the maneuver range
`[38001, 60000)`: a record with obsid in that range is skipped with no
state change whatever its `power_cmd`; an interval appended by a step
takes its obsid from that step's (non-skipped) record; and every interval
returned by `find_obsid_intervals` has its obsid outside the range. -/
theorem no_maneuver_obsids_in_intervals :
    (∀ (s : ScanState) (e : CmdState), 38001 ≤ e.obsid → e.obsid < 60000 →
      stepState s e = some s)
  ∧ (∀ (s : ScanState) (e : CmdState) (s' : ScanState), stepState s e = some s' →
      ∀ x ∈ s'.out, x ∈ s.out ∨
        (x.obsid = e.obsid ∧ ¬(38001 ≤ e.obsid ∧ e.obsid < 60000)))
  ∧ (∀ (oracle : List Int → Option (List OcatRow)) (cs : List CmdState)
      (res : List ObsidInterval), find_obsid_intervals oracle cs = some res →
      ∀ x ∈ res, ¬(38001 ≤ x.obsid ∧ x.obsid < 60000)) := by
  refine ⟨?_, ?_, ?_⟩
  · intro s e h1 h2
    unfold stepState
    rw [if_pos ⟨h2, h1⟩]
  · intro s e s' h x hx
    rcases stepState_out s e s' h x hx with hl | ⟨h1, h2, -⟩
    · exact Or.inl hl
    · exact Or.inr ⟨h1, h2⟩
  · intro oracle cs res h x hx
    obtain ⟨st, hst, a, ha, hp⟩ := find_mem_origin oracle cs res h x hx
    have hinv := (runScan_init_out cs st hst a ha).1
    rcases hp with rfl | ⟨-, r, rfl⟩
    · exact hinv
    · rw [show (attachRow r a).obsid = a.obsid from rfl]
      exact hinv

theorem no_maneuver_obsids_in_intervals_witness :
    (38001 ≤ (mkCmd 40000 "AA00000000" "a" "b" 1 2 0).obsid ∧
      (mkCmd 40000 "AA00000000" "a" "b" 1 2 0).obsid < 60000 ∧
      stepState initScanState (mkCmd 40000 "AA00000000" "a" "b" 1 2 0) =
        some initScanState) ∧
    (find_obsid_intervals exOracleNone exStream = some exResNone ∧
      ∀ x ∈ exResNone, ¬(38001 ≤ x.obsid ∧ x.obsid < 60000)) :=
  ⟨⟨by decide, by decide,
    no_maneuver_obsids_in_intervals.1 initScanState _ (by decide) (by decide)⟩,
   ⟨by decide,
    fun x hx => no_maneuver_obsids_in_intervals.2.2 exOracleNone exStream exResNone
      (by decide) x hx⟩⟩

/-- C8: the list returned by `find_obsid_intervals` is sorted by `tstart`
ascending, and the transient intermediate list (the one used for catalog
alignment) is sorted by `obsid` ascending. -/
theorem find_obsid_intervals_sorted_by_tstart
    (oracle : List Int → Option (List OcatRow)) (cs : List CmdState)
    (res : List ObsidInterval) (h : find_obsid_intervals oracle cs = some res) :
    List.Pairwise (fun a b => a.tstart ≤ b.tstart) res ∧
    ∀ l1, sorted_by_obsid cs = some l1 →
      List.Pairwise (fun a b => a.obsid ≤ b.obsid) l1 := by
  constructor
  · unfold find_obsid_intervals find_obsid_intervals_traced at h
    cases hscan : sorted_by_obsid cs with
    | none => rw [hscan] at h; exact absurd h (by simp)
    | some l1 =>
      rw [hscan] at h
      cases horacle : oracle (l1.map (fun e => e.obsid)) with
      | none =>
        simp only [fetch_ocat_data, horacle, Option.map_none', Option.some.injEq] at h
        rw [← h]
        exact List.sorted_insertionSort tstartLE l1
      | some raw =>
        simp only [fetch_ocat_data, horacle, Option.map_some'] at h
        cases hen : enrichFrom (List.insertionSort rowLE raw) 0 l1 with
        | none => rw [hen] at h; simp at h
        | some l2 =>
          rw [hen] at h
          simp only [Option.some.injEq] at h
          rw [← h]
          exact List.sorted_insertionSort tstartLE l2
  · intro l1 hl1
    obtain ⟨st, -, hl1'⟩ := Option.map_eq_some'.mp hl1
    rw [← hl1']
    exact List.sorted_insertionSort obsidLE st.out

theorem find_obsid_intervals_sorted_by_tstart_witness :
    find_obsid_intervals exOracleNone exStream = some exResNone ∧
    List.Pairwise (fun a b => a.tstart ≤ b.tstart) exResNone :=
  ⟨by decide,
   (find_obsid_intervals_sorted_by_tstart exOracleNone exStream exResNone (by decide)).1⟩

/-- A command stream producing a single cold-ECS interval, obsid 70001. -/
def ecsStream : List CmdState :=
  [ mkCmd 70001 "WSPOW00000" "d1" "x" 10 11 0,
    mkCmd 70001 "XTZ0000005" "a" "b" 20 21 (-90000),
    mkCmd 70001 "AA00000000" "c" "d2" 29 30 0 ]

/-- The single interval extracted from `ecsStream`. -/
def ecsResNone : List ObsidInterval :=
  [ { datestart := "d1", datestop := "d2", tstart := 10, tstop := 30,
      start_science := 20, obsid := 70001, instrument := "HRC-S", ocat := none } ]

/-- C2 counterexample: the obsid list passed to the catalog collaborator
is NOT filtered to exclude obsids > 60000 — for `ecsStream` the single
request is `[70001]`, which contains an obsid above the threshold. -/
theorem fetch_request_contains_ecs_obsid :
    requested_obsids ecsStream = some [70001] ∧
    (find_obsid_intervals_traced exOracleNone ecsStream).2 = [[70001]] ∧
    ¬ (∀ req, requested_obsids ecsStream = some req → ∀ o ∈ req, o ≤ 60000) := by
  refine ⟨by decide, by decide, ?_⟩
  intro hall
  have h := hall [70001] (by decide) 70001 (by decide)
  omega

/-- C2 (amended): `find_obsid_intervals` calls the catalog collaborator
exactly once, passing the full list of obsids of the extracted
(obsid-sorted) intervals — including any obsid > 60000; the threshold is
applied only at attachment time, so no interval with obsid > 60000 ever
has a catalog group attached, even on a successful fetch. -/
theorem fetch_called_once_with_full_obsid_list
    (oracle : List Int → Option (List OcatRow)) (cs : List CmdState) :
    ∃ req, requested_obsids cs = some req ∧
      (find_obsid_intervals_traced oracle cs).2 = [req] ∧
      ∀ res, find_obsid_intervals oracle cs = some res →
        ∀ e ∈ res, e.obsid > 60000 → e.ocat = none := by
  obtain ⟨st, hst⟩ := runScan_init_some cs
  have hsorted : sorted_by_obsid cs = some (List.insertionSort obsidLE st.out) := by
    simp [sorted_by_obsid, hst]
  refine ⟨(List.insertionSort obsidLE st.out).map (fun e => e.obsid), ?_, ?_, ?_⟩
  · simp [requested_obsids, hsorted]
  · unfold find_obsid_intervals_traced
    rw [hsorted]
    cases horacle : oracle ((List.insertionSort obsidLE st.out).map (fun e => e.obsid)) with
    | none => simp [fetch_ocat_data, horacle]
    | some raw =>
      simp only [fetch_ocat_data, horacle, Option.map_some']
      cases hen : enrichFrom (List.insertionSort rowLE raw) 0
          (List.insertionSort obsidLE st.out) with
      | none => rfl
      | some l2 => rfl
  · intro res hres e he hgt
    obtain ⟨st', hst', a, ha, hp⟩ := find_mem_origin oracle cs res hres e he
    have hocat := (runScan_init_out cs st' hst' a ha).2
    rcases hp with rfl | ⟨hle, r, rfl⟩
    · exact hocat
    · exfalso
      rw [show (attachRow r a).obsid = a.obsid from rfl] at hgt
      omega

theorem fetch_called_once_with_full_obsid_list_witness :
    find_obsid_intervals exOracleNone ecsStream = some ecsResNone ∧
    ∀ e ∈ ecsResNone, e.obsid > 60000 → e.ocat = none := by
  refine ⟨by decide, ?_⟩
  obtain ⟨req, h1, h2, h3⟩ := fetch_called_once_with_full_obsid_list exOracleNone ecsStream
  exact h3 ecsResNone (by decide)

/-- Disjunction of the four bucket conditions of `acis_filter`: an
interval failing all of them hits the `RuntimeError` branch. -/
def classifiable (e : ObsidInterval) : Bool :=
  hot_acis e || e.instrument == "ACIS-S" || e.instrument == "ACIS-I" ||
    (e.instrument == "HRC-S" && decide (e.obsid ≥ 60000))

theorem acis_filter_loop_ok (l : List ObsidInterval) :
    ∀ b : Buckets, (∀ e ∈ l, classifiable e = true) →
      acis_filter_loop l b = .ok
        { acis_i := b.acis_i ++ l.filter (fun e => !hot_acis e && e.instrument == "ACIS-I"),
          acis_s := b.acis_s ++ l.filter (fun e => !hot_acis e && e.instrument == "ACIS-S"),
          acis_hot := b.acis_hot ++ l.filter (fun e => hot_acis e),
          cold_ecs := b.cold_ecs ++ l.filter
            (fun e => !hot_acis e && (e.instrument == "HRC-S" && decide (e.obsid ≥ 60000))) } := by
  induction l with
  | nil => intro b h; simp [acis_filter_loop]
  | cons e rest ih =>
    intro b h
    have hcls := h e (List.mem_cons_self e rest)
    have hrest := fun x hx => h x (List.mem_cons_of_mem e hx)
    unfold acis_filter_loop
    split_ifs with h1 h2 h3 h4
    · rw [ih _ hrest]
      simp [List.filter_cons, h1, List.append_assoc]
    · rw [ih _ hrest]
      have h2' : e.instrument = "ACIS-S" := by simpa using h2
      simp [List.filter_cons, h1, h2', List.append_assoc]
    · rw [ih _ hrest]
      have h3' : e.instrument = "ACIS-I" := by simpa using h3
      simp [List.filter_cons, h1, h3', List.append_assoc]
    · rw [ih _ hrest]
      simp only [Bool.and_eq_true, beq_iff_eq, decide_eq_true_eq] at h4
      simp [List.filter_cons, h1, h4.1, h4.2, List.append_assoc]
    · exfalso
      simp only [classifiable, Bool.or_eq_true, Bool.and_eq_true] at hcls
      rcases hcls with ((hc | hc) | hc) | hc
      · exact h1 hc
      · exact h2 hc
      · exact h3 hc
      · exact h4 (by simp [hc.1, hc.2])

theorem acis_filter_loop_err (l : List ObsidInterval) :
    ∀ b : Buckets, (∃ e ∈ l, classifiable e = false) →
      ∃ e ∈ l, classifiable e = false ∧
        acis_filter_loop l b = .error (classErrMsg e.obsid) := by
  induction l with
  | nil => intro b h; simp at h
  | cons e rest ih =>
    intro b hex
    by_cases hc : classifiable e = true
    · have hrest : ∃ x ∈ rest, classifiable x = false := by
        rcases hex with ⟨x, hx, hxf⟩
        rcases List.mem_cons.mp hx with rfl | hx2
        · rw [hc] at hxf; exact absurd hxf (by simp)
        · exact ⟨x, hx2, hxf⟩
      simp only [classifiable, Bool.or_eq_true, Bool.and_eq_true] at hc
      unfold acis_filter_loop
      split_ifs with h1 h2 h3 h4
      · obtain ⟨x, hx, hxf, herr⟩ := ih _ hrest
        exact ⟨x, List.mem_cons_of_mem e hx, hxf, herr⟩
      · obtain ⟨x, hx, hxf, herr⟩ := ih _ hrest
        exact ⟨x, List.mem_cons_of_mem e hx, hxf, herr⟩
      · obtain ⟨x, hx, hxf, herr⟩ := ih _ hrest
        exact ⟨x, List.mem_cons_of_mem e hx, hxf, herr⟩
      · obtain ⟨x, hx, hxf, herr⟩ := ih _ hrest
        exact ⟨x, List.mem_cons_of_mem e hx, hxf, herr⟩
      · exfalso
        rcases hc with ((hc | hc) | hc) | hc
        · exact h1 hc
        · exact h2 (by simpa using hc)
        · exact h3 (by simpa using hc)
        · exact h4 (by simp [hc.1, hc.2])
    · refine ⟨e, List.mem_cons_self e rest, by simpa using hc, ?_⟩
      have hc' := hc
      simp only [classifiable, Bool.or_eq_true, Bool.and_eq_true, not_or, beq_iff_eq,
        decide_eq_true_eq, Bool.not_eq_true, not_and, not_le] at hc'
      obtain ⟨⟨⟨hcf, hcs⟩, hci⟩, hchrc⟩ := hc'
      unfold acis_filter_loop
      split_ifs with h1 h2 h3 h4
      · rw [hcf] at h1; exact absurd h1 (by simp)
      · exact absurd (by simpa using h2) hcs
      · exact absurd (by simpa using h3) hci
      · simp only [Bool.and_eq_true, beq_iff_eq, decide_eq_true_eq] at h4
        have := hchrc h4.1
        omega
      · rfl

/-- C3: per interval, `hot` is false when no catalog group is attached and
otherwise equals `grating == "HETG" ∨ (num_counts < 300 ∧ S3 == "Y" ∧
ccd_count == 1)`; when every interval matches a bucket, `acis_filter`
routes hot intervals to `acis_hot`, else `ACIS-S` to `acis_s`, else
`ACIS-I` to `acis_i`, else `HRC-S` with obsid ≥ 60000 to `cold_ecs`, in
that precedence order; and an interval matching no bucket makes
`acis_filter` return the fatal classification error naming that
interval's obsid, propagated to the caller. -/
theorem acis_filter_spec :
    (∀ e : ObsidInterval,
      (e.ocat = none → hot_acis e = false) ∧
      (hot_acis e = true ↔ ∃ g, e.ocat = some g ∧
        (g.grating = "HETG" ∨ (g.num_counts < 300 ∧ g.S3 = "Y" ∧ g.ccd_count = 1))))
  ∧ (∀ l : List ObsidInterval, (∀ e ∈ l, classifiable e = true) →
      acis_filter l = .ok
        { acis_i := l.filter (fun e => !hot_acis e && e.instrument == "ACIS-I"),
          acis_s := l.filter (fun e => !hot_acis e && e.instrument == "ACIS-S"),
          acis_hot := l.filter (fun e => hot_acis e),
          cold_ecs := l.filter
            (fun e => !hot_acis e && (e.instrument == "HRC-S" && decide (e.obsid ≥ 60000))) })
  ∧ (∀ l : List ObsidInterval, (∃ e ∈ l, classifiable e = false) →
      ∃ e ∈ l, classifiable e = false ∧
        acis_filter l = .error (classErrMsg e.obsid)) := by
  refine ⟨?_, ?_, ?_⟩
  · intro e
    constructor
    · intro h; simp [hot_acis, h]
    · cases hoc : e.ocat with
      | none => simp [hot_acis, hoc]
      | some g =>
        simp only [hot_acis, hoc, Option.some.injEq, Bool.or_eq_true, Bool.and_eq_true,
          beq_iff_eq, decide_eq_true_eq]
        constructor
        · rintro (h | ⟨h1, h2, h3⟩)
          · exact ⟨g, rfl, Or.inl h⟩
          · exact ⟨g, rfl, Or.inr ⟨h1, h2, h3⟩⟩
        · rintro ⟨g', hg', h | ⟨h1, h2, h3⟩⟩
          · subst hg'; exact Or.inl h
          · subst hg'; exact Or.inr ⟨h1, h2, h3⟩
  · intro l h
    have := acis_filter_loop_ok l { acis_i := [], acis_s := [], acis_hot := [], cold_ecs := [] } h
    simpa [acis_filter] using this
  · intro l h
    obtain ⟨e, he, hc, herr⟩ :=
      acis_filter_loop_err l { acis_i := [], acis_s := [], acis_hot := [], cold_ecs := [] } h
    exact ⟨e, he, hc, herr⟩

/-- An `ACIS-S` HETG interval with `S3 = "N"`: hot. -/
def hotObs : ObsidInterval :=
  { datestart := "a", datestop := "b", tstart := 0, tstop := 1, start_science := 0,
    obsid := 300, instrument := "ACIS-S",
    ocat := some { grating := "HETG", ccd_count := 5, S3 := "N", num_counts := 1000 } }

/-- An `ACIS-S` interval with low expected counts on S3 only: hot. -/
def warmObs : ObsidInterval :=
  { datestart := "a", datestop := "b", tstart := 10, tstop := 11, start_science := 10,
    obsid := 301, instrument := "ACIS-S",
    ocat := some { grating := "NONE", ccd_count := 1, S3 := "Y", num_counts := 100 } }

/-- A plain `ACIS-I` interval: not hot. -/
def iObs : ObsidInterval :=
  { datestart := "a", datestop := "b", tstart := 20, tstop := 21, start_science := 20,
    obsid := 302, instrument := "ACIS-I",
    ocat := some { grating := "NONE", ccd_count := 4, S3 := "N", num_counts := 500 } }

/-- The demo list fed to `acis_filter` in the witness. -/
def demoList : List ObsidInterval :=
  [hotObs, warmObs, iObs,
   { datestart := "d1", datestop := "d2", tstart := 30, tstop := 31,
     start_science := 30, obsid := 70001, instrument := "HRC-S", ocat := none }]

theorem acis_filter_spec_witness :
    (∀ e ∈ demoList, classifiable e = true) ∧
    acis_filter demoList = .ok
      { acis_i := demoList.filter (fun e => !hot_acis e && e.instrument == "ACIS-I"),
        acis_s := demoList.filter (fun e => !hot_acis e && e.instrument == "ACIS-S"),
        acis_hot := demoList.filter (fun e => hot_acis e),
        cold_ecs := demoList.filter
          (fun e => !hot_acis e && (e.instrument == "HRC-S" && decide (e.obsid ≥ 60000))) } :=
  ⟨by decide, acis_filter_spec.2.1 demoList (by decide)⟩

/-- C6: when the catalog fetch fails (the collaborator returns the
explicit failure value), `find_obsid_intervals` neither raises nor
aborts: it returns the interval list with no catalog group attached to
any interval (the warning goes to a diagnostic channel outside this
model), and — for streams whose retained intervals match a bucket
condition on instrument alone — the downstream filter stages still
produce a bucketed result. -/
theorem fetch_failure_degrades_gracefully
    (oracle : List Int → Option (List OcatRow)) (cs : List CmdState)
    (hfail : ∀ req, requested_obsids cs = some req → oracle req = none) :
    ∃ res, find_obsid_intervals oracle cs = some res ∧
      (∀ e ∈ res, e.ocat = none) ∧
      ((∀ e ∈ hrc_science_obs_filter res,
          e.instrument = "ACIS-S" ∨ e.instrument = "ACIS-I" ∨
          (e.instrument = "HRC-S" ∧ e.obsid ≥ 60000)) →
        ∃ b, acis_filter (hrc_science_obs_filter res) = .ok b) := by
  obtain ⟨st, hst⟩ := runScan_init_some cs
  have hsorted : sorted_by_obsid cs = some (List.insertionSort obsidLE st.out) := by
    simp [sorted_by_obsid, hst]
  have hreq : requested_obsids cs =
      some ((List.insertionSort obsidLE st.out).map (fun e => e.obsid)) := by
    simp [requested_obsids, hsorted]
  have horacle := hfail _ hreq
  refine ⟨List.insertionSort tstartLE (List.insertionSort obsidLE st.out), ?_, ?_, ?_⟩
  · unfold find_obsid_intervals find_obsid_intervals_traced
    rw [hsorted]
    simp [fetch_ocat_data, horacle]
  · intro e he
    have he1 := (mem_insertionSort tstartLE _ e).mp he
    have he2 := (mem_insertionSort obsidLE st.out e).mp he1
    exact (runScan_init_out cs st hst e he2).2
  · intro hcls
    have hall : ∀ e ∈ hrc_science_obs_filter
        (List.insertionSort tstartLE (List.insertionSort obsidLE st.out)),
        classifiable e = true := by
      intro e he
      rcases hcls e he with h | h | ⟨h1, h2⟩
      · simp [classifiable, h]
      · simp [classifiable, h]
      · simp [classifiable, h1, h2]
    exact ⟨_, by simpa [acis_filter] using
      acis_filter_loop_ok _ { acis_i := [], acis_s := [], acis_hot := [], cold_ecs := [] } hall⟩

theorem fetch_failure_degrades_gracefully_witness :
    ∃ res, find_obsid_intervals exOracleNone exStream = some res ∧
      (∀ e ∈ res, e.ocat = none) ∧
      ((∀ e ∈ hrc_science_obs_filter res,
          e.instrument = "ACIS-S" ∨ e.instrument = "ACIS-I" ∨
          (e.instrument = "HRC-S" ∧ e.obsid ≥ 60000)) →
        ∃ b, acis_filter (hrc_science_obs_filter res) = .ok b) :=
  fetch_failure_degrades_gracefully exOracleNone exStream (fun _ _ => rfl)

theorem enrichFrom_aligned (rows : List OcatRow) :
    ∀ (l : List ObsidInterval) (i : Nat),
      List.Pairwise (fun a b : ObsidInterval => a.obsid ≤ b.obsid) l →
      (rows.drop i).map (fun r => r.obsid) =
        (l.filter (fun e => decide (e.obsid ≤ 60000))).map (fun e => e.obsid) →
      ∃ l', enrichFrom rows i l = some l' ∧
        ∀ b ∈ l', (b.obsid > 60000 ∧ b ∈ l) ∨
          ∃ r ∈ rows.drop i, ∃ a ∈ l, r.obsid = a.obsid ∧ b = attachRow r a := by
  intro l
  induction l with
  | nil => intro i _ _; exact ⟨[], rfl, by simp⟩
  | cons e rest ih =>
    intro i hp halign
    by_cases hle : e.obsid ≤ 60000
    · have hfc : (e :: rest).filter (fun x => decide (x.obsid ≤ 60000)) =
          e :: rest.filter (fun x => decide (x.obsid ≤ 60000)) := by
        simp [List.filter_cons, hle]
      rw [hfc] at halign
      cases hdrop : rows.drop i with
      | nil => rw [hdrop] at halign; simp at halign
      | cons r tl =>
        rw [hdrop] at halign
        simp only [List.map_cons, List.cons.injEq] at halign
        obtain ⟨hro, htl⟩ := halign
        have hget : rows.get? i = some r := by
          rw [List.get?_eq_getElem?, ← List.head?_drop, hdrop]
          rfl
        have hdrop1 : rows.drop (i + 1) = tl := by
          rw [show i + 1 = i + 1 from rfl, ← List.drop_drop 1 i rows, hdrop]
          rfl
        obtain ⟨rest', hen, hprop⟩ := ih (i + 1) hp.of_cons (by rw [hdrop1]; exact htl)
        have h1 : enrichOne rows e i = some (attachRow r e) := by
          unfold enrichOne
          rw [if_neg (by omega), hget]
        refine ⟨attachRow r e :: rest', ?_, ?_⟩
        · unfold enrichFrom
          rw [h1, hen]
        · intro b hb
          rcases List.mem_cons.mp hb with rfl | hb2
          · right
            exact ⟨r, List.mem_cons_self r tl, e, List.mem_cons_self e rest, hro, rfl⟩
          · rcases hprop b hb2 with ⟨hgt, hmem⟩ | ⟨r', hr', a, ha, heqro, hatt⟩
            · exact Or.inl ⟨hgt, List.mem_cons_of_mem e hmem⟩
            · right
              refine ⟨r', ?_, a, List.mem_cons_of_mem e ha, heqro, hatt⟩
              rw [hdrop1] at hr'
              exact List.mem_cons_of_mem r hr'
    · have hgt : e.obsid > 60000 := by omega
      have hrest_gt : ∀ x ∈ rest, x.obsid > 60000 := by
        intro x hx
        have := (List.pairwise_cons.mp hp).1 x hx
        omega
      have hrestfil : rest.filter (fun x => decide (x.obsid ≤ 60000)) = [] :=
        List.filter_eq_nil_iff.mpr (fun x hx => by
          simp only [decide_eq_true_eq]
          have := hrest_gt x hx
          omega)
      have hfe : (e :: rest).filter (fun x => decide (x.obsid ≤ 60000)) = [] := by
        simp [List.filter_cons, hle, hrestfil]
      rw [hfe] at halign
      have hdropnil : rows.drop i = [] := List.map_eq_nil_iff.mp halign
      have hdrop1 : rows.drop (i + 1) = [] := by
        rw [List.drop_eq_nil_iff]
        have := List.drop_eq_nil_iff.mp hdropnil
        omega
      obtain ⟨rest', hen, hprop⟩ := ih (i + 1) hp.of_cons (by rw [hdrop1, hrestfil]; rfl)
      have h1 : enrichOne rows e i = some e := by
        unfold enrichOne
        rw [if_pos hgt]
      refine ⟨e :: rest', ?_, ?_⟩
      · unfold enrichFrom
        rw [h1, hen]
      · intro b hb
        rcases List.mem_cons.mp hb with hb1 | hb2
        · rw [hb1]
          exact Or.inl ⟨hgt, List.mem_cons_self e rest⟩
        · rcases hprop b hb2 with ⟨hg, hm⟩ | ⟨r', hr', -⟩
          · exact Or.inl ⟨hg, List.mem_cons_of_mem e hm⟩
          · exfalso
            rw [hdrop1] at hr'
            simp at hr'

/-- C1: for every extracted interval list and every successfully fetched
catalog table whose rows carry exactly the obsids of the catalog-eligible
intervals (in any arrival order), the enrichment step attaches to each
catalog-eligible returned interval (obsid ≤ 60000) the `grating`,
`ccd_count`, `S3` and `num_counts` values of a fetched row with that very
obsid: the obsid-sort of both sides makes the positional attachment agree
with matching by obsid value, independent of the catalog's row order. -/
theorem enrichment_matches_by_obsid
    (oracle : List Int → Option (List OcatRow)) (cs : List CmdState)
    (l1 : List ObsidInterval) (raw : List OcatRow)
    (hl1 : sorted_by_obsid cs = some l1)
    (horacle : oracle (l1.map (fun e => e.obsid)) = some raw)
    (hperm : (raw.map (fun r => r.obsid)).Perm
      ((l1.filter (fun e => decide (e.obsid ≤ 60000))).map (fun e => e.obsid))) :
    ∃ res, find_obsid_intervals oracle cs = some res ∧
      ∀ e ∈ res, e.obsid ≤ 60000 →
        ∃ r ∈ raw, r.obsid = e.obsid ∧
          e.ocat = some { grating := r.grating, ccd_count := r.ccd_count,
                          S3 := r.S3, num_counts := r.num_counts } := by
  have hl1sorted : List.Pairwise (fun a b : ObsidInterval => a.obsid ≤ b.obsid) l1 := by
    obtain ⟨st, -, h⟩ := Option.map_eq_some'.mp hl1
    rw [← h]
    exact List.sorted_insertionSort obsidLE st.out
  have hrows_sorted : List.Pairwise (fun a b : OcatRow => a.obsid ≤ b.obsid)
      (List.insertionSort rowLE raw) := List.sorted_insertionSort rowLE raw
  have h1 : List.Pairwise (fun a b : Int => a ≤ b)
      ((List.insertionSort rowLE raw).map (fun r => r.obsid)) :=
    List.pairwise_map.mpr hrows_sorted
  have h2 : List.Pairwise (fun a b : Int => a ≤ b)
      ((l1.filter (fun e => decide (e.obsid ≤ 60000))).map (fun e => e.obsid)) :=
    List.pairwise_map.mpr (hl1sorted.sublist (List.filter_sublist l1))
  have hpermrows : ((List.insertionSort rowLE raw).map (fun r => r.obsid)).Perm
      ((l1.filter (fun e => decide (e.obsid ≤ 60000))).map (fun e => e.obsid)) :=
    ((List.perm_insertionSort rowLE raw).map _).trans hperm
  have heq : (List.insertionSort rowLE raw).map (fun r => r.obsid) =
      (l1.filter (fun e => decide (e.obsid ≤ 60000))).map (fun e => e.obsid) :=
    List.eq_of_perm_of_sorted hpermrows h1 h2
  obtain ⟨l2, hen, hprop⟩ := enrichFrom_aligned (List.insertionSort rowLE raw) l1 0
    hl1sorted (by rw [List.drop_zero]; exact heq)
  refine ⟨List.insertionSort tstartLE l2, ?_, ?_⟩
  · unfold find_obsid_intervals find_obsid_intervals_traced
    rw [hl1]
    simp only [fetch_ocat_data, horacle, Option.map_some']
    rw [hen]
  · intro e he hle
    have he2 := (mem_insertionSort tstartLE l2 e).mp he
    rcases hprop e he2 with ⟨hgt, -⟩ | ⟨r, hr, a, ha, heqro, hatt⟩
    · omega
    · rw [List.drop_zero] at hr
      refine ⟨r, (List.perm_insertionSort rowLE raw).mem_iff.mp hr, ?_, ?_⟩
      · rw [hatt, show (attachRow r a).obsid = a.obsid from rfl]
        exact heqro
      · rw [hatt]
        rfl

/-- Catalog rows for obsids 200 and 100 arriving in reverse obsid order. -/
def exRawRows : List OcatRow :=
  [ { obsid := 200, grating := "HETG", ccd_count := 5, S3 := "N", num_counts := 1000 },
    { obsid := 100, grating := "NONE", ccd_count := 1, S3 := "Y", num_counts := 100 } ]

/-- An oracle that answers the request `[100, 200]` with `exRawRows`. -/
def exOracleRows : List Int → Option (List OcatRow) :=
  fun req => if req = [100, 200] then some exRawRows else none

/-- The obsid-sorted intermediate interval list of `exStream`. -/
def exL1 : List ObsidInterval :=
  [ { datestart := "d3", datestop := "d4", tstart := 40, tstop := 60,
      start_science := 50, obsid := 100, instrument := "ACIS-S", ocat := none },
    { datestart := "d1", datestop := "d2", tstart := 10, tstop := 30,
      start_science := 20, obsid := 200, instrument := "ACIS-I", ocat := none } ]

theorem enrichment_matches_by_obsid_witness :
    sorted_by_obsid exStream = some exL1 ∧
    exOracleRows (exL1.map (fun e => e.obsid)) = some exRawRows ∧
    (exRawRows.map (fun r => r.obsid)).Perm
      ((exL1.filter (fun e => decide (e.obsid ≤ 60000))).map (fun e => e.obsid)) ∧
    ∃ res, find_obsid_intervals exOracleRows exStream = some res ∧
      ∀ e ∈ res, e.obsid ≤ 60000 →
        ∃ r ∈ exRawRows, r.obsid = e.obsid ∧
          e.ocat = some { grating := r.grating, ccd_count := r.ccd_count,
                          S3 := r.S3, num_counts := r.num_counts } :=
  ⟨by decide, by decide, by decide,
   enrichment_matches_by_obsid exOracleRows exStream exL1 exRawRows
     (by decide) (by decide) (by decide)⟩
